import Mathlib

/-
Shallow embedding of src/list.py (the "genai-prices" price-listing tool).

Modelling conventions:
  - JSON numbers (Python int/float) are modelled as rationals.  Non-finite
    floats (the strings "nan"/"inf" parsed by Python's float) are outside the
    numeric domain of the embedding; a string's convertibility to a number is
    recorded in its PValue constructor.
  - Python dicts are association lists with first-occurrence lookup
    (JSON object keys are unique after parsing).
  - Fields that the code always reads with a default, such as
    provider.get("id", "") or model.get("name", ""), are stored already
    defaulted.  A model's "id" is kept as an Option String because the code
    reads it both as model.get("id", "") and as model.get("id") (no default,
    i.e. None when absent) in the provider-annotation re-scan.
  - Raising Python code is modelled with Except / Option.
  - Printing is modelled structurally: the program's stdout is represented by
    the ordered segment list (unsorted mode) or the ordered annotated row list
    (sorted mode); the rendered text is a function of that structure.
-/

attribute [local semireducible] Rat.add

/-- A JSON-derived Python value as it can appear as a price entry:
None, a number (int/float), a string together with the rational that
float(s) would produce (none when float(s) raises ValueError), or a
collection (list/dict), on which float() raises TypeError. -/
inductive PValue where
  | null : PValue
  | num : ℚ → PValue
  | str : String → Option ℚ → PValue
  | coll : PValue
deriving DecidableEq

/-- The raw "prices" field of a model: a JSON object (dict), or anything
else (list or other non-dict); absence is represented by dict [] since the
code reads it as model.get("prices", \x7b\x7d). -/
inductive PricesField where
  | dict : List (String × PValue) → PricesField
  | nondict : PricesField
deriving DecidableEq

/-- Embeds lines 105-111 of list.py: a list (or any non-dict) prices value
is replaced by the empty dict before any price is read. -/
def effPrices : PricesField → List (String × PValue)
  | .dict es => es
  | .nondict => []

/-- A model record.  idOpt is model["id"] when present (None-vs-"" matters
in the sorted-mode provider re-scan); name is model.get("name", "").  -/
structure MModel where
  idOpt : Option String
  name : String
  prices : PricesField
deriving DecidableEq

/-- A provider record; id and name are provider.get("id", "") and
provider.get("name", ""), models is provider.get("models", []). -/
structure Provider where
  id : String
  name : String
  models : List MModel
deriving DecidableEq

/-- Boolean list inclusion test used to define substring search. -/
def listPrefixB : List Char → List Char → Bool
  | [], _ => true
  | _ :: _, [] => false
  | a :: as, b :: bs => a == b && listPrefixB as bs

/-- Boolean substring-occurrence test: does pat occur contiguously in text?
Matches Python's "pat in text" on lists of characters (an empty pat always
occurs). -/
def listSubstrB (pat : List Char) : List Char → Bool
  | [] => pat.isEmpty
  | b :: bs => listPrefixB pat (b :: bs) || listSubstrB pat bs

/-- Python's str.lower modelled as per-character ASCII lowercasing
(Char.toLower), as a character list. -/
def lowerChars (s : String) : List Char :=
  s.toList.map Char.toLower

/-- Embeds matches_filter (list.py lines 37-39):
filter_str.lower() in text.lower(). -/
def matches_filter (text filter_str : String) : Bool :=
  listSubstrB (lowerChars filter_str) (lowerChars text)

/-- Embeds list.py lines 56-58: the filter token "all" (case-insensitive)
is replaced by the empty filter before any matching. -/
def normFilter (filter_str : String) : String :=
  if lowerChars filter_str == "all".toList then "" else filter_str

/-- The integer number of cents of a rational: 100 * q rounded to the
nearest integer (halves away from zero), computed on the numerator and
denominator.  This is the value Python's :.2f formatting displays; the
rounding-mode difference to float formatting (half-to-even on the binary
value) is below the granularity of the rational embedding and every claim
evaluates it only at exact hundredths. -/
def centsOf (q : ℚ) : ℤ :=
  let a : ℕ := q.num.natAbs
  let r : ℕ := (200 * a + q.den) / (2 * q.den)
  if q.num < 0 then -(r : ℤ) else (r : ℤ)

/-- Two-decimal fixed-point rendering of a rational, as Python's
f-string :.2f formatting produces for the corresponding value. -/
def fmtFixed2 (q : ℚ) : String :=
  let n : ℤ := centsOf q
  let a : ℕ := n.natAbs
  let cents : ℕ := a % 100
  let centsStr : String := if cents < 10 then "0" ++ toString cents else toString cents
  (if n < 0 then "-" else "") ++ toString (a / 100) ++ "." ++ centsStr

/-- Embeds format_price (list.py lines 42-49): empty string for None, for a
string float() cannot parse, and for a collection (TypeError); otherwise a
dollar-prefixed two-decimal rendering. -/
def format_price : PValue → String
  | .null => ""
  | .num q => "$" ++ fmtFixed2 q
  | .str _ (some q) => "$" ++ fmtFixed2 q
  | .str _ none => ""
  | .coll => ""

/-- The float conversion attempted on prices.get(key, 0) in the price-sum
computation (list.py lines 122-128): value v contributes float(v) when v is
truthy and an int/float/str, 0.0 when v is falsy or not a number/string;
a truthy string float() cannot parse raises (modelled as .error). -/
def sumConv : PValue → Except Unit ℚ
  | .null => .ok 0
  | .num q => .ok q
  | .str s p =>
      if s == "" then .ok 0
      else match p with
        | some q => .ok q
        | none => .error ()
  | .coll => .ok 0

/-- Embeds the price_sum computation (list.py lines 119-129).  Both running
values start at 0.0; inside one try block the input value is converted first,
then the output value, so a raising input leaves both at 0.0 and a raising
output leaves only the input's contribution. -/
def priceSum (pr : PricesField) : ℚ :=
  let iRaw := ((effPrices pr).lookup "input_mtok").getD (.num 0)
  let oRaw := ((effPrices pr).lookup "output_mtok").getD (.num 0)
  match sumConv iRaw with
  | .error _ => 0
  | .ok v1 =>
    match sumConv oRaw with
    | .error _ => v1
    | .ok v2 => v1 + v2

/-- A display row as built at list.py lines 131-141.  Provider is set only
by the sorted-mode annotation pass (absent key modelled as none). -/
structure Row where
  rName : String
  rInput : String
  rWrite : String
  rRead : String
  rOut : String
  rModel : String
  rPriceSum : ℚ
  rProvider : Option String
deriving DecidableEq

/-- Builds the row for one included model (list.py lines 102-141):
formatted price cells from prices.get(key) (None when absent), price_sum,
display name falling back to the id when the name is empty. -/
def modelRow (m : MModel) : Row :=
  let mid := m.idOpt.getD ""
  let es := effPrices m.prices
  { rName := if m.name == "" then mid else m.name
  , rInput := format_price ((es.lookup "input_mtok").getD .null)
  , rWrite := format_price ((es.lookup "cache_write_mtok").getD .null)
  , rRead := format_price ((es.lookup "cache_read_mtok").getD .null)
  , rOut := format_price ((es.lookup "output_mtok").getD .null)
  , rModel := mid
  , rPriceSum := priceSum m.prices
  , rProvider := none }

/-- Embeds the provider-match test (list.py lines 70-74). -/
def providerMatches (filter_str : String) (p : Provider) : Bool :=
  filter_str == "" || matches_filter p.id filter_str || matches_filter p.name filter_str

/-- Embeds the model-match test (list.py lines 79-82 and 95-98). -/
def modelMatches (filter_str : String) (m : MModel) : Bool :=
  matches_filter (m.idOpt.getD "") filter_str || matches_filter m.name filter_str

/-- Embeds the per-model inclusion test inside the model loop (list.py
lines 93-100): when the provider already matched, or the filter is empty,
every model is kept; otherwise only matching models are kept. -/
def includeModel (filter_str : String) (provider_matches : Bool) (m : MModel) : Bool :=
  if !provider_matches && filter_str != "" then modelMatches filter_str m else true

/-- The rows one provider contributes (list.py lines 65-142): a provider
that neither matches nor has any matching model is skipped (continue at
line 85); otherwise its models pass through the inclusion test. -/
def providerRows (filter_str : String) (p : Provider) : List Row :=
  let pm := providerMatches filter_str p
  if !pm && !(p.models.any (modelMatches filter_str)) then []
  else (p.models.filter (includeModel filter_str pm)).map modelRow

/-- all_rows: the matched-row set in traversal order (list.py line 142).
matched_any is exactly the statement that this list is nonempty, since both
are updated at the same program point. -/
def allRows (filter_str : String) (data : List Provider) : List Row :=
  (data.map (providerRows filter_str)).flatten

/-- The sort key comparison used at list.py line 159:
all_rows.sort is a stable ascending sort on the PriceSum key. -/
def rowLE (a b : Row) : Bool := a.rPriceSum ≤ b.rPriceSum

/-- Embeds the sorted-mode provider annotation (list.py lines 161-168).
For each row the whole dataset is scanned again; every provider having a
model whose raw id equals the row's model id overwrites row["Provider"]
with its name (the break at line 168 only leaves the inner model loop, so
the outer provider loop keeps scanning and a later match overwrites an
earlier one).  The comparison model.get("id") == row.get("Model") is
against the raw id: a model with a missing id (None) never equals the
row's defaulted string id. -/
def annotate (data : List Provider) (r : Row) : Row :=
  data.foldl
    (fun acc p =>
      if p.models.any (fun m => m.idOpt == some acc.rModel) then
        { acc with rProvider := some p.name }
      else acc)
    r

/-- One printed table segment of the unsorted mode: the banner's provider
name and id (lines 152-154) and the rows of the table printed under it. -/
structure Segment where
  provName : String
  provId : String
  rows : List Row
deriving DecidableEq

/-- The row stream of the unsorted mode together with the owning provider's
name and id, in traversal order (the data the loop at lines 144-155 sees). -/
def rowEvents (filter_str : String) (data : List Provider) : List (String × String × Row) :=
  (data.map (fun p => (providerRows filter_str p).map (fun r => (p.name, p.id, r)))).flatten

/-- One step of the unsorted-mode grouping loop (list.py lines 144-155),
on the segment list kept in reverse order: a banner (new segment) is opened
exactly when the incoming row's provider name differs from current_provider,
the name on the last banner; otherwise the row joins the open segment. -/
def groupStep (acc : List Segment) (e : String × String × Row) : List Segment :=
  match acc with
  | [] => [⟨e.1, e.2.1, [e.2.2]⟩]
  | s :: rest =>
    if s.provName == e.1 then ⟨s.provName, s.provId, s.rows ++ [e.2.2]⟩ :: rest
    else ⟨e.1, e.2.1, [e.2.2]⟩ :: s :: rest

/-- The printed segments of the unsorted mode, in print order. -/
def segmentsOf (filter_str : String) (data : List Provider) : List Segment :=
  ((rowEvents filter_str data).foldl groupStep []).reverse

/-- The structural output of list_prices: per-provider table segments when
not sorting, a single annotated sorted table when sorting. -/
inductive Output where
  | grouped : List Segment → Output
  | sortedTable : List Row → Output
deriving DecidableEq

/-- Embeds list_prices (list.py lines 52-184) on an already-loaded dataset:
normalize the "all" token, build the matched rows, render either the grouped
segments or the stable-sorted annotated table, and return 1 exactly when the
normalized filter is nonempty and no row matched (line 180), else 0. -/
def list_prices (filter0 : String) (sort_by_price : Bool) (data : List Provider) : Output × Nat :=
  let filter_str := normFilter filter0
  let rows := allRows filter_str data
  let out :=
    if sort_by_price then
      Output.sortedTable ((rows.mergeSort rowLE).map (annotate data))
    else
      Output.grouped (segmentsOf filter_str data)
  let code := if filter_str != "" && rows.isEmpty then 1 else 0
  (out, code)

/-- Embeds the argument loop of main (list.py lines 231-237): "--sort"
turns on sorting, any other argument becomes the filter (the last one wins). -/
def parseArgs (args : List String) : String × Bool :=
  args.foldl (fun acc a => if a == "--sort" then (acc.1, true) else (a, acc.2)) ("", false)

/-- Python's max() over a list (of lengths), which raises ValueError on an
empty sequence: modelled as none exactly when the list is empty. -/
def maxLenOpt : List ℕ → Option ℕ
  | [] => none
  | x :: xs => some (xs.foldl max x)

/-- Python's str.strip(): remove leading and trailing whitespace. -/
def pyStrip (s : String) : String :=
  ⟨((s.toList.dropWhile Char.isWhitespace).reverse.dropWhile Char.isWhitespace).reverse⟩

/-- The filter string the pipeline effectively runs with: the last non-flag
argument in argument mode, the stripped prompt reply in interactive mode. -/
def effectiveFilter (args : List String) (stdin : String) : String :=
  if args.isEmpty then pyStrip stdin else (parseArgs args).1

/-- Embeds main (list.py lines 225-299) on a loaded dataset, with the one
line of interactive input passed as stdin.  With arguments, the parsed
filter and sort flag feed list_prices.  With no arguments, the summary
mode computes column widths with max() over the provider name and id
lengths, which raises ValueError on an empty dataset (.error); otherwise
it prompts, exits with 0 on an empty stripped reply (no table printed,
modelled as grouped []), and else runs list_prices without sorting.
The summary table's own text is not modelled: only whether the width
computation raises affects control flow. -/
def mainFn (args : List String) (stdin : String) (data : List Provider) : Except Unit (Output × Nat) :=
  if args.isEmpty then
    match maxLenOpt (data.map (fun p => p.name.length)),
          maxLenOpt (data.map (fun p => p.id.length)) with
    | some _, some _ =>
      let f := pyStrip stdin
      if f == "" then .ok (Output.grouped [], 0)
      else .ok (list_prices f false data)
    | _, _ => .error ()
  else
    let fs := parseArgs args
    .ok (list_prices fs.1 fs.2 data)

/-
Concrete records used by witnesses and counterexamples.
-/

/-- A model priced at input 1, output 2 (price sum 3). -/
def mTiny : MModel := ⟨some "m1", "Tiny", .dict [("input_mtok", .num 1), ("output_mtok", .num 2)]⟩

/-- A model priced at input 2, output 3 (price sum 5). -/
def mBig : MModel := ⟨some "m2", "Big", .dict [("input_mtok", .num 2), ("output_mtok", .num 3)]⟩

/-- A provider holding mTiny. -/
def pAcme : Provider := ⟨"acme", "Acme", [mTiny]⟩

/-- A provider holding mBig. -/
def pBravo : Provider := ⟨"bravo", "Bravo", [mBig]⟩

/-- A model whose input price is negative. -/
def mNeg : MModel := ⟨some "neg", "Neg", .dict [("input_mtok", .num (-5))]⟩

/-
C8.
-/

/-- C8: format_price maps None and unparseable strings to the empty string
and format_price(3) to "$3.00"; in general every value float() cannot
convert (None, unparseable string, collection) gives the empty string and
every convertible value gives a dollar-prefixed two-decimal rendering; the
function is total, so it never raises. -/
theorem format_price_spec :
    format_price PValue.null = "" ∧
    format_price (.str "not-a-number" none) = "" ∧
    format_price (.num 3) = "$3.00" ∧
    (∀ s : String, format_price (.str s none) = "") ∧
    format_price .coll = "" ∧
    (∀ q : ℚ, format_price (.num q) = "$" ++ fmtFixed2 q) ∧
    (∀ s : String, ∀ q : ℚ, format_price (.str s (some q)) = "$" ++ fmtFixed2 q) :=
  ⟨rfl, rfl, by decide, fun _ => rfl, rfl, fun _ => rfl, fun _ _ => rfl⟩

/-
C6.
-/

/-- C6 counterexample: a model whose prices dict carries input_mtok = -5
(a perfectly convertible number) gets price_sum -5, which is negative, so
price_sum is not non-negative for every shape of the prices field. -/
theorem price_sum_negative_cex :
    (modelRow mNeg).rPriceSum = -5 ∧ (modelRow mNeg).rPriceSum < 0 := by
  constructor <;> decide

/-- C6 amended: price_sum is total (never raises) by construction, and it
is non-negative provided the values stored under input_mtok and output_mtok
convert to non-negative numbers whenever they convert at all; an absent or
invalid value still contributes exactly 0. -/
theorem price_sum_nonneg (pr : PricesField)
    (hin : ∀ q : ℚ,
      sumConv (((effPrices pr).lookup "input_mtok").getD (.num 0)) = .ok q → 0 ≤ q)
    (hout : ∀ q : ℚ,
      sumConv (((effPrices pr).lookup "output_mtok").getD (.num 0)) = .ok q → 0 ≤ q) :
    0 ≤ priceSum pr := by
  unfold priceSum
  rcases hi : sumConv (((effPrices pr).lookup "input_mtok").getD (.num 0)) with e | v1
  · simp [hi]
  · rcases ho : sumConv (((effPrices pr).lookup "output_mtok").getD (.num 0)) with e | v2
    · simp only [hi, ho]
      exact hin v1 hi
    · simp only [hi, ho]
      exact add_nonneg (hin v1 hi) (hout v2 ho)

/-- C6 amended, witness: the hypotheses hold for mTiny's prices (values 1
and 2), and its price_sum is non-negative. -/
theorem price_sum_nonneg_witness : 0 ≤ priceSum mTiny.prices := by
  apply price_sum_nonneg
  · intro q hq
    simp [mTiny, effPrices, sumConv, List.lookup] at hq
    subst hq
    decide
  · intro q hq
    simp [mTiny, effPrices, sumConv, List.lookup] at hq
    subst hq
    decide

/-
C10.
-/

/-- C10: with no command-line arguments and an empty dataset the
interactive summary mode fails (Python: max() over the empty sequence of
provider name lengths raises an uncaught ValueError) instead of printing a
summary and prompting; mainFn returns .error before the prompt is reached,
whatever the prompt reply would have been. -/
theorem interactive_empty_dataset_raises (stdin : String) :
    mainFn [] stdin [] = .error () := rfl

/-
Shared lemmas about the selection logic.
-/

/-- With a matching provider the per-model inclusion test always passes. -/
theorem includeModel_of_provider_match (filter_str : String) (m : MModel) :
    includeModel filter_str true m = true := rfl

/-- A matching provider contributes one row per model, in order. -/
theorem providerRows_of_matches (filter_str : String) (p : Provider)
    (h : providerMatches filter_str p = true) :
    providerRows filter_str p = p.models.map modelRow := by
  unfold providerRows
  simp only [h, Bool.not_true, Bool.false_and]
  rw [if_neg (by simp)]
  rw [List.filter_congr (fun m _ => includeModel_of_provider_match filter_str m)]
  rw [List.filter_eq_self.mpr (fun a _ => rfl)]

/-- An empty filter makes every provider match. -/
theorem providerMatches_of_empty (p : Provider) : providerMatches "" p = true := rfl

/-
C1.
-/

/-- C1: if the (post-"all"-normalization) filter is empty or a
case-insensitive substring of a provider's id or name, then every model of
that provider produces its row in the matched-row set, regardless of the
model's own id and name. -/
theorem provider_match_lists_all_models
    (fil : String) (data : List Provider) (p : Provider) (m : MModel)
    (hp : p ∈ data) (hm : m ∈ p.models)
    (hmatch : normFilter fil = ""
      ∨ matches_filter p.id (normFilter fil) = true
      ∨ matches_filter p.name (normFilter fil) = true) :
    modelRow m ∈ allRows (normFilter fil) data := by
  have hpm : providerMatches (normFilter fil) p = true := by
    rcases hmatch with h | h | h <;> simp [providerMatches, h]
  unfold allRows
  refine List.mem_flatten.mpr ⟨providerRows (normFilter fil) p, List.mem_map_of_mem _ hp, ?_⟩
  rw [providerRows_of_matches _ _ hpm]
  exact List.mem_map_of_mem _ hm

/-- C1 witness: with filter "acme" (matching provider Acme's id), Acme's
model mTiny is in the matched-row set although neither its id "m1" nor its
name "Tiny" contains "acme". -/
theorem provider_match_lists_all_models_witness :
    modelRow mTiny ∈ allRows (normFilter "acme") [pAcme, pBravo] :=
  provider_match_lists_all_models "acme" [pAcme, pBravo] pAcme mTiny
    (by decide) (by decide) (Or.inr (Or.inl (by decide)))

/-
C2.
-/

/-- C2: a provider that does not match the filter (which forces the filter
to be nonempty) contributes exactly the rows of its models whose id or name
matches the filter case-insensitively, in source order: a model of such a
provider produces a row iff the filter is a case-insensitive substring of
the model's id or name. -/
theorem nonmatching_provider_rows (fil : String) (p : Provider)
    (hp : providerMatches fil p = false) :
    providerRows fil p = (p.models.filter (modelMatches fil)).map modelRow := by
  have hfil : (fil != "") = true := by
    rcases h : fil == "" with _ | _
    · simp [bne, h]
    · rw [show fil = "" from by simpa using h] at hp
      simp [providerMatches] at hp
  have hflt : p.models.filter (includeModel fil false) = p.models.filter (modelMatches fil) :=
    List.filter_congr (fun m _ => by simp [includeModel, hfil])
  unfold providerRows
  rcases hany : p.models.any (modelMatches fil) with _ | _
  · have h0 : p.models.filter (modelMatches fil) = [] :=
      List.filter_eq_nil_iff.mpr (by simpa using List.any_eq_false.mp hany)
    simp [hp, hany, h0]
  · simp [hp, hany, hflt]

/-- C2 witness: provider pMixed (id "prov", name "Prov") does not match
filter "big"; of its two models only mBig (name "Big") matches, and
providerRows keeps exactly that model's row. -/
theorem nonmatching_provider_rows_witness :
    providerRows "big" (⟨"prov", "Prov", [mTiny, mBig]⟩ : Provider)
      = ((([mTiny, mBig] : List MModel).filter (modelMatches "big")).map modelRow) :=
  nonmatching_provider_rows "big" ⟨"prov", "Prov", [mTiny, mBig]⟩ (by decide)

/-
C3.
-/

/-- C3: passing the filter token "all" in any letter case gives the same
structural output and the same exit code as passing the empty filter, for
every dataset and sort flag (the token is normalized to the empty filter
before any matching). -/
theorem all_token_equals_empty (fil : String) (sort_by_price : Bool) (data : List Provider)
    (h : lowerChars fil = "all".toList) :
    list_prices fil sort_by_price data = list_prices "" sort_by_price data := by
  have h1 : normFilter fil = "" := by simp [normFilter, h]
  have h2 : normFilter "" = "" := by decide
  unfold list_prices
  rw [h1, h2]

/-- C3 witness: filter "AlL" behaves as the empty filter on a concrete
two-provider dataset with sorting off. -/
theorem all_token_equals_empty_witness :
    list_prices "AlL" false [pAcme, pBravo] = list_prices "" false [pAcme, pBravo] :=
  all_token_equals_empty "AlL" false [pAcme, pBravo] (by decide)

/-
Shared lemmas about the sorted mode.
-/

/-- The sort comparison is transitive. -/
theorem rowLE_trans : ∀ a b c : Row, rowLE a b → rowLE b c → rowLE a c := by
  intro a b c hab hbc
  simp only [rowLE, decide_eq_true_eq] at *
  exact le_trans hab hbc

/-- The sort comparison is total. -/
theorem rowLE_total : ∀ a b : Row, rowLE a b || rowLE b a := by
  intro a b
  simp only [rowLE, Bool.or_eq_true, decide_eq_true_eq]
  exact le_total _ _

/-- The annotation pass only touches the Provider field: model id and
price sum are unchanged. -/
theorem annotate_fields (data : List Provider) (r : Row) :
    (annotate data r).rModel = r.rModel ∧ (annotate data r).rPriceSum = r.rPriceSum := by
  induction data generalizing r with
  | nil => exact ⟨rfl, rfl⟩
  | cons p ps ih =>
    have hstep : annotate (p :: ps) r
        = annotate ps (if p.models.any (fun m => m.idOpt == some r.rModel)
            then { r with rProvider := some p.name } else r) := rfl
    rw [hstep]
    rcases h : p.models.any (fun m => m.idOpt == some r.rModel) with _ | _
    · simpa [h] using ih r
    · simpa [h] using ih { r with rProvider := some p.name }

/-- Stability of the stable sort, filter form: the subsequence of rows
with any fixed price sum is unchanged by the sort. -/
theorem mergeSort_filter_key (l : List Row) (q : ℚ) :
    (l.mergeSort rowLE).filter (fun r => r.rPriceSum == q)
      = l.filter (fun r => r.rPriceSum == q) := by
  have hpair : (l.filter (fun r => r.rPriceSum == q)).Pairwise (fun a b => rowLE a b) := by
    apply List.pairwise_of_forall_mem_list
    intro a ha b hb
    have ha' := (List.mem_filter.mp ha).2
    have hb' := (List.mem_filter.mp hb).2
    simp only [beq_iff_eq] at ha' hb'
    simp [rowLE, ha', hb']
  have hsub : List.Sublist (l.filter (fun r => r.rPriceSum == q)) (l.mergeSort rowLE) :=
    List.sublist_mergeSort rowLE_trans rowLE_total hpair (List.filter_sublist l)
  have hself : (l.filter (fun r => r.rPriceSum == q)).filter (fun r => r.rPriceSum == q)
      = l.filter (fun r => r.rPriceSum == q) :=
    List.filter_eq_self.mpr (fun a ha => (List.mem_filter.mp ha).2)
  have h1 : List.Sublist (l.filter (fun r => r.rPriceSum == q))
      ((l.mergeSort rowLE).filter (fun r => r.rPriceSum == q)) := by
    have := hsub.filter (fun r => r.rPriceSum == q)
    rwa [hself] at this
  have hperm : List.Perm ((l.mergeSort rowLE).filter (fun r => r.rPriceSum == q))
      (l.filter (fun r => r.rPriceSum == q)) :=
    (List.mergeSort_perm l rowLE).filter _
  exact (h1.eq_of_length hperm.length_eq.symm).symm

/-
C4.
-/

/-- C4: in sorted mode the rendered table is exactly the stable sort of the
matched rows by price sum followed by the provider annotation; the rendered
sequence is non-decreasing in price_sum, and for every price sum q the rows
with that sum appear in exactly their unsorted traversal order (each as the
annotated version of the corresponding unsorted row). -/
theorem sorted_output_sorted_stable (fil : String) (data : List Provider) :
    (list_prices fil true data).1
      = Output.sortedTable (((allRows (normFilter fil) data).mergeSort rowLE).map (annotate data))
    ∧ (((allRows (normFilter fil) data).mergeSort rowLE).map (annotate data)).Pairwise
        (fun a b => a.rPriceSum ≤ b.rPriceSum)
    ∧ ∀ q : ℚ,
        ((((allRows (normFilter fil) data).mergeSort rowLE).map (annotate data)).filter
            (fun r => r.rPriceSum == q))
          = ((allRows (normFilter fil) data).filter (fun r => r.rPriceSum == q)).map
              (annotate data) := by
  refine ⟨rfl, ?_, ?_⟩
  · rw [List.pairwise_map]
    have hs : ((allRows (normFilter fil) data).mergeSort rowLE).Pairwise
        (fun a b => rowLE a b) :=
      List.sorted_mergeSort rowLE_trans rowLE_total _
    apply hs.imp
    intro a b hab
    rw [(annotate_fields data a).2, (annotate_fields data b).2]
    simpa [rowLE] using hab
  · intro q
    rw [List.filter_map]
    have hcong : ((fun r : Row => r.rPriceSum == q) ∘ annotate data)
        = (fun r : Row => r.rPriceSum == q) := by
      funext r
      simp [Function.comp, (annotate_fields data r).2]
    rw [hcong, mergeSort_filter_key]

/-
C5.
-/

/-- Two providers, named "First" and "Second" in source order, both holding
a model with the same id "m". -/
def mSharedA : MModel := ⟨some "m", "SharedA", .dict []⟩

/-- Second model carrying the duplicated id "m". -/
def mSharedB : MModel := ⟨some "m", "SharedB", .dict []⟩

/-- The earlier provider containing model id "m". -/
def pFirst : Provider := ⟨"p1", "First", [mSharedA]⟩

/-- The later provider containing model id "m". -/
def pSecond : Provider := ⟨"p2", "Second", [mSharedB]⟩

/-- C5 counterexample: with providers "First" and "Second" both containing
a model with id "m", the sorted-mode output annotates both rows with
"Second", the name of the LAST provider in source order containing such a
model, although the earliest one is named "First" (its model list does
contain id "m"); so first-match-wins is false. -/
theorem sorted_provider_annotation_cex :
    (list_prices "" true [pFirst, pSecond]).1
      = Output.sortedTable
          [⟨"SharedA", "", "", "", "", "m", 0, some "Second"⟩,
           ⟨"SharedB", "", "", "", "", "m", 0, some "Second"⟩]
    ∧ pFirst.name = "First"
    ∧ pFirst.models.any (fun m => m.idOpt == some "m") = true
    ∧ (some "Second" : Option String) ≠ some "First" := by
  refine ⟨?_, by decide, by decide, by decide⟩
  have h0 : allRows (normFilter "") [pFirst, pSecond] = [modelRow mSharedA, modelRow mSharedB] := by
    decide
  have h1 : (allRows (normFilter "") [pFirst, pSecond]).mergeSort rowLE
      = [modelRow mSharedA, modelRow mSharedB] := by
    rw [h0]
    apply List.mergeSort_of_sorted
    decide
  rw [show (list_prices "" true [pFirst, pSecond]).1
      = Output.sortedTable (((allRows (normFilter "") [pFirst, pSecond]).mergeSort rowLE).map
          (annotate [pFirst, pSecond])) from rfl, h1]
  decide

/-- C5 amended: in sorted mode each rendered row is the annotation of the
corresponding matched row, and the annotation re-scans the whole dataset:
every provider containing a model whose raw id equals the row's model id
overwrites the Provider cell in turn, so the LAST such provider in source
order wins (equivalently, the first match over the reversed dataset), not
the first; a row whose model id no provider's model carries (possible only
through the None-vs-"" id distinction) keeps no Provider cell. -/
theorem sorted_provider_annotation_last_wins (fil : String) (data : List Provider) :
    (list_prices fil true data).1
      = Output.sortedTable (((allRows (normFilter fil) data).mergeSort rowLE).map (annotate data))
    ∧ ∀ r : Row,
        annotate data r
          = match data.reverse.find? (fun p => p.models.any (fun m => m.idOpt == some r.rModel)) with
            | some p => { r with rProvider := some p.name }
            | none => r := by
  refine ⟨rfl, ?_⟩
  intro r
  induction data using List.reverseRecOn with
  | nil => rfl
  | append_singleton ds p ih =>
    have hm : (annotate ds r).rModel = r.rModel := (annotate_fields ds r).1
    have h1 : annotate (ds ++ [p]) r
        = (if p.models.any (fun m => m.idOpt == some r.rModel)
            then { annotate ds r with rProvider := some p.name } else annotate ds r) := by
      unfold annotate
      rw [List.foldl_append]
      simp only [List.foldl_cons, List.foldl_nil]
      rw [show (List.foldl
          (fun acc p => if p.models.any (fun m => m.idOpt == some acc.rModel)
            then { acc with rProvider := some p.name } else acc) r ds).rModel = r.rModel from hm]
    rw [h1, List.reverse_append, List.reverse_singleton, List.singleton_append]
    rcases hp : p.models.any (fun m => m.idOpt == some r.rModel) with _ | _
    · rw [List.find?_cons_of_neg _ (by simp [hp])]
      simpa using ih
    · rw [List.find?_cons_of_pos _ (by simp [hp])]
      rw [ih]
      rcases hf : ds.reverse.find? (fun p => p.models.any (fun m => m.idOpt == some r.rModel)) with _ | p'
      · simp [hf]
      · simp [hf]

/-
Shared lemmas about the unsorted (grouped) mode.
-/

/-- All rows printed by a segment list, in print order. -/
def segsRows (segs : List Segment) : List Row :=
  (segs.map Segment.rows).flatten

/-- The banner name each printed row sits under, row by row. -/
def segsNameSeq (segs : List Segment) : List String :=
  (segs.map (fun s => s.rows.map (fun _ => s.provName))).flatten

/-- The matched rows are the row events' row components. -/
theorem rowEvents_snd (filter_str : String) (data : List Provider) :
    (rowEvents filter_str data).map (fun e => e.2.2) = allRows filter_str data := by
  unfold rowEvents allRows
  rw [List.map_flatten]
  have hcomp : ((List.map fun e : String × String × Row => e.2.2)
      ∘ fun p => List.map (fun r => (p.name, p.id, r)) (providerRows filter_str p))
      = providerRows filter_str := by
    funext p
    show List.map (fun e : String × String × Row => e.2.2)
        (List.map (fun r => (p.name, p.id, r)) (providerRows filter_str p))
      = providerRows filter_str p
    rw [List.map_map]
    exact List.map_id' _
  rw [List.map_map, hcomp]

/-- Invariant of the grouping loop: starting from a reversed segment list
with nonempty tables and distinct adjacent banner names, the loop keeps
both properties, appends each event's row to the flattened output, and
files each row under a banner carrying its provider's name. -/
theorem groupFold_spec (evs : List (String × String × Row)) :
    ∀ acc : List Segment,
      (∀ s ∈ acc, s.rows ≠ []) →
      acc.Chain' (fun a b => a.provName ≠ b.provName) →
      (∀ s ∈ evs.foldl groupStep acc, s.rows ≠ [])
      ∧ (evs.foldl groupStep acc).Chain' (fun a b => a.provName ≠ b.provName)
      ∧ segsRows (evs.foldl groupStep acc).reverse
          = segsRows acc.reverse ++ evs.map (fun e => e.2.2)
      ∧ segsNameSeq (evs.foldl groupStep acc).reverse
          = segsNameSeq acc.reverse ++ evs.map (fun e => e.1) := by
  induction evs with
  | nil => exact fun acc h1 h2 => ⟨h1, h2, by simp, by simp⟩
  | cons e evs ih =>
    intro acc h1 h2
    have key : (∀ s ∈ groupStep acc e, s.rows ≠ [])
        ∧ (groupStep acc e).Chain' (fun a b => a.provName ≠ b.provName)
        ∧ segsRows (groupStep acc e).reverse = segsRows acc.reverse ++ [e.2.2]
        ∧ segsNameSeq (groupStep acc e).reverse = segsNameSeq acc.reverse ++ [e.1] := by
      rcases acc with _ | ⟨s, rest⟩
      · refine ⟨?_, List.chain'_singleton _, by simp [groupStep, segsRows],
          by simp [groupStep, segsNameSeq]⟩
        intro s hs
        simp [groupStep] at hs
        simp [hs]
      · rcases hbe : s.provName == e.1 with _ | _
        · have hne : s.provName ≠ e.1 := by simpa using hbe
          have hG : groupStep (s :: rest) e = ⟨e.1, e.2.1, [e.2.2]⟩ :: s :: rest := by
            simp [groupStep, hbe]
          refine ⟨?_, ?_, ?_, ?_⟩
          · intro t ht
            rw [hG] at ht
            simp only [List.mem_cons] at ht
            rcases ht with h | h | h
            · simp [h]
            · exact h ▸ h1 s (by simp)
            · exact h1 t (by simp [h])
          · rw [hG]
            exact List.chain'_cons.mpr ⟨fun h => hne h.symm, h2⟩
          · rw [hG]
            simp [segsRows]
          · rw [hG]
            simp [segsNameSeq]
        · have heq : s.provName = e.1 := by simpa using hbe
          have hG : groupStep (s :: rest) e
              = ⟨s.provName, s.provId, s.rows ++ [e.2.2]⟩ :: rest := by
            simp [groupStep, hbe]
          refine ⟨?_, ?_, ?_, ?_⟩
          · intro t ht
            rw [hG] at ht
            simp only [List.mem_cons] at ht
            rcases ht with h | h
            · have hr := h1 s (by simp)
              simp [h]
            · exact h1 t (by simp [h])
          · rw [hG]
            rw [List.chain'_cons']
            exact ⟨(List.chain'_cons'.mp h2).1, (List.chain'_cons'.mp h2).2⟩
          · rw [hG]
            simp [segsRows]
          · rw [hG]
            simp [segsNameSeq, heq, List.replicate_succ']
    rcases key with ⟨k1, k2, k3, k4⟩
    have hrec := ih (groupStep acc e) k1 k2
    refine ⟨hrec.1, hrec.2.1, ?_, ?_⟩
    · rw [List.foldl_cons, hrec.2.2.1, k3]
      simp
    · rw [List.foldl_cons, hrec.2.2.2, k4]
      simp

/-
C9.
-/

/-- C9 counterexample: two distinct providers in a row share the display
name "X"; both produce a row under the empty filter, yet the unsorted
output holds a single table segment (bannered with the first provider's
name and id) containing both providers' rows, not one segment per
row-producing provider. -/
theorem one_segment_for_two_providers_cex :
    (list_prices "" false [⟨"p1", "X", [mTiny]⟩, ⟨"p2", "X", [mBig]⟩]).1
      = Output.grouped [⟨"X", "p1", [modelRow mTiny, modelRow mBig]⟩]
    ∧ providerRows "" ⟨"p1", "X", [mTiny]⟩ ≠ []
    ∧ providerRows "" ⟨"p2", "X", [mBig]⟩ ≠ [] := by
  refine ⟨by decide, by decide, by decide⟩

/-- C9 amended: in unsorted mode the output is the segment list produced
by the grouping loop; its segments cover exactly the matched rows in
traversal order, each row lies in a segment bannered with its own
provider's display name, every printed segment is nonempty, and adjacent
segments carry different banner names — i.e. one segment per maximal run
of consecutive row-producing providers sharing a display name (so two
providers produce one merged segment exactly when no row of a
differently-named provider comes between their rows). -/
theorem unsorted_grouped_output (fil : String) (data : List Provider) :
    (list_prices fil false data).1 = Output.grouped (segmentsOf (normFilter fil) data)
    ∧ segsRows (segmentsOf (normFilter fil) data) = allRows (normFilter fil) data
    ∧ segsNameSeq (segmentsOf (normFilter fil) data)
        = (rowEvents (normFilter fil) data).map (fun e => e.1)
    ∧ (segmentsOf (normFilter fil) data).all (fun s => !s.rows.isEmpty) = true
    ∧ (segmentsOf (normFilter fil) data).Chain' (fun a b => a.provName ≠ b.provName) := by
  have hspec := groupFold_spec (rowEvents (normFilter fil) data) [] (by simp) (by simp)
  refine ⟨rfl, ?_, ?_, ?_, ?_⟩
  · unfold segmentsOf
    rw [hspec.2.2.1]
    simpa [segsRows] using rowEvents_snd (normFilter fil) data
  · unfold segmentsOf
    rw [hspec.2.2.2]
    simp [segsNameSeq]
  · unfold segmentsOf
    rw [List.all_eq_true]
    intro s hs
    have hne := hspec.1 s (by simpa using hs)
    rcases hrw : s.rows with _ | _
    · exact absurd hrw hne
    · rfl
  · unfold segmentsOf
    exact List.chain'_reverse.mpr (hspec.2.1.imp (fun a b hab => hab.symm))

/-
C7.
-/

/-- The return value of list_prices is 1 exactly when the normalized
filter is nonempty and no row matched, and 0 otherwise. -/
theorem list_prices_code (f : String) (s : Bool) (data : List Provider) :
    (list_prices f s data).2 = 1
      ↔ (normFilter f ≠ "" ∧ allRows (normFilter f) data = []) := by
  unfold list_prices
  rcases hc : (normFilter f != "" && (allRows (normFilter f) data).isEmpty) with _ | _
  · simp only [hc, if_false]
    constructor
    · intro h
      exact absurd h (by decide)
    · rintro ⟨h1, h2⟩
      have hb : (normFilter f != "" && (allRows (normFilter f) data).isEmpty) = true := by
        rw [Bool.and_eq_true]
        exact ⟨bne_iff_ne.mpr h1, List.isEmpty_iff.mpr h2⟩
      rw [hc] at hb
      exact absurd hb (by decide)
  · simp only [hc, if_true]
    have hc' := hc
    rw [Bool.and_eq_true] at hc'
    exact iff_of_true trivial ⟨bne_iff_ne.mp hc'.1, List.isEmpty_iff.mp hc'.2⟩

/-- C7: whenever the run completes (mainFn returns .ok), the exit code is
1 exactly when the effective filter (the last non-flag argument, or the
stripped interactive reply) is nonempty after "all"-normalization and no
row matched; in particular the interactive early exit on an empty stripped
reply returns 0. -/
theorem exit_code_iff (args : List String) (stdin : String) (data : List Provider)
    (out : Output) (code : ℕ)
    (h : mainFn args stdin data = .ok (out, code)) :
    (code = 1 ↔ (normFilter (effectiveFilter args stdin) ≠ ""
        ∧ allRows (normFilter (effectiveFilter args stdin)) data = []))
    ∧ (args = [] → pyStrip stdin = "" → code = 0) := by
  rcases args with _ | ⟨a, rest⟩
  · unfold mainFn at h
    simp only [List.isEmpty_nil, if_true] at h
    rcases data with _ | ⟨p, ps⟩
    · simp [maxLenOpt] at h
    · simp only [List.map_cons, maxLenOpt] at h
      rcases hstrip : pyStrip stdin == "" with _ | _
      · simp only [hstrip, if_false] at h
        injection h with h'
        have hcode : (list_prices (pyStrip stdin) false (p :: ps)).2 = code :=
          congrArg Prod.snd h'
        constructor
        · rw [← hcode]
          simpa [effectiveFilter] using list_prices_code (pyStrip stdin) false (p :: ps)
        · intro _ hs
          rw [hs] at hstrip
          exact absurd hstrip (by decide)
      · simp only [hstrip, if_true] at h
        injection h with h'
        have hcode : (0 : ℕ) = code := congrArg Prod.snd h'
        have hs : pyStrip stdin = "" := by simpa using hstrip
        constructor
        · rw [← hcode]
          apply iff_of_false (by decide)
          rintro ⟨h1, _⟩
          apply h1
          simp [effectiveFilter, hs]
          decide
        · exact fun _ _ => hcode.symm
  · unfold mainFn at h
    simp only [List.isEmpty_cons, if_false] at h
    injection h with h'
    have hcode : (list_prices (parseArgs (a :: rest)).1 (parseArgs (a :: rest)).2 data).2 = code :=
      congrArg Prod.snd h'
    constructor
    · rw [← hcode]
      simpa [effectiveFilter] using
        list_prices_code (parseArgs (a :: rest)).1 (parseArgs (a :: rest)).2 data
    · intro hcontra
      exact absurd hcontra (by simp)

/-- C7 witness: running with the single argument "zzz" on a dataset it
does not match returns exit code 1, and the characterization holds at that
input. -/
theorem exit_code_iff_witness :
    ((1 : ℕ) = 1 ↔ (normFilter (effectiveFilter ["zzz"] "") ≠ ""
        ∧ allRows (normFilter (effectiveFilter ["zzz"] "")) [pAcme] = []))
    ∧ (["zzz"] = [] → pyStrip "" = "" → (1 : ℕ) = 0) :=
  exit_code_iff ["zzz"] "" [pAcme] (Output.grouped []) 1 rfl
